import Mathlib

/-!
Verification development for a small line-numbered BASIC interpreter
(`basic.go`).  The Go source is shallowly embedded: the scanner
(`TokenReader`), the recursive-descent compiler (`CompileExpr`,
`CompileKeyword`, `CompileStatement`), the expression evaluator
(`Expr.Eval`, `BinaryOps`), statement execution (`Stmt.Execute`), the
ordered program store (the btree of `Line`s, modelled as a sorted
association list per its documented contract), the executor
(`Basic.Run`), file loading (`Basic.Load`, taken as a function of the
loaded file's character contents), and the two REPL branches the claims
touch (numbered-line entry and immediate keyword execution from
`Basic.Program`).

Conventions: character input is a `List Char`; a process-fatal event in
the Go code (`os.Exit` on I/O error or unexpected EOF, or a runtime
panic such as a nil-statement call or integer division by zero) is
modelled as the `none` / `.fatal` outcome; a reported language-level
error carries the exact message text written to the error stream.
Loops in the source that can genuinely fail to terminate (the error
drain and the REPL loops re-reading a pushed-back character) take a
fuel argument; fuel exhaustion is folded into the fatal outcome.
-/

namespace GoBasic

/-- Token kinds produced by `TokenReader.ReadToken` (Go `Token` plus its
`n`/`s` payloads). -/
inductive Tok where
  | eol
  | kw (s : String)
  | int (n : Int)
  | str (s : String)
  | op (s : String)
deriving DecidableEq, Repr

/-- Character class test `(ch >= 'A' && ch <= 'Z') || (ch >= 'a' && ch <= 'z')`. -/
def isLetterCh (c : Char) : Bool :=
  ('A' ≤ c && c ≤ 'Z') || ('a' ≤ c && c ≤ 'z')

/-- Character class test `ch >= '0' && ch <= '9'`. -/
def isDigitCh (c : Char) : Bool :=
  '0' ≤ c && c ≤ '9'

/-- Numeric value of a digit character (`int(ch) - '0'`). -/
def digitVal (c : Char) : Int :=
  (c.toNat : Int) - ('0'.toNat : Int)

/-- ASCII uppercasing of one character, as `strings.ToUpper` acts on the
letters-plus-suffix identifiers the scanner produces. -/
def upCh (c : Char) : Char :=
  if 'a' ≤ c && c ≤ 'z' then Char.ofNat (c.toNat - 32) else c

/-- Uppercase an identifier (`strings.ToUpper` on scanner identifiers). -/
def goUpper (s : String) : String :=
  ⟨s.data.map upCh⟩

/-- Identifier scan: the loop in `ReadToken` after an initial letter.
Letters accumulate; a `$` or `%` suffix is kept and terminates; any
other character is pushed back.  EOF mid-scan is process-fatal (`none`). -/
def scanKw : List Char → String → Option (String × List Char)
  | [], _ => none
  | c :: cs, acc =>
    if isLetterCh c then scanKw cs (acc.push c)
    else if c = '$' || c = '%' then some (acc.push c, cs)
    else some (acc, c :: cs)

/-- Integer-literal scan: the digit loop in `ReadToken`.  The following
non-digit character is pushed back; EOF mid-scan is process-fatal. -/
def scanNum : List Char → Int → Option (Int × List Char)
  | [], _ => none
  | c :: cs, n =>
    if isDigitCh c then scanNum cs (n * 10 + digitVal c)
    else some (n, c :: cs)

/-- String-literal scan: characters up to the closing quote, no escape
mechanism.  EOF before the closing quote is process-fatal. -/
def scanStr : List Char → String → Option (String × List Char)
  | [], _ => none
  | c :: cs, acc =>
    if c = '"' then some (acc, cs)
    else scanStr cs (acc.push c)

/-- Comment skip after a `'` marker: characters through the newline are
consumed.  EOF before the newline is process-fatal. -/
def skipComment : List Char → Option (List Char)
  | [] => none
  | c :: cs => if c = '\n' then some cs else skipComment cs

/-- One underlying token read (`TokenReader.ReadToken` without the peek
cache).  Returns the token and the remaining input, or `none` for a
process-fatal EOF.  Two source details are preserved exactly: in the
`'>'` branch the source compares the *unadvanced* character against
`'='` (never true) and then unreads the `'>'` itself, so `>` is
returned without consuming any input; and a character matching no
branch is silently skipped by the outer loop. -/
def readTokenCore : List Char → Option (Tok × List Char)
  | [] => none
  | c :: cs =>
    if c = ' ' then readTokenCore cs
    else if c = '\n' then some (.eol, cs)
    else if c = '\'' then
      match skipComment cs with
      | some cs2 => some (.eol, cs2)
      | none => none
    else if isLetterCh c then
      match scanKw cs (String.singleton c) with
      | some (k, cs2) => some (.kw (goUpper k), cs2)
      | none => none
    else if isDigitCh c then
      match scanNum cs (digitVal c) with
      | some (n, cs2) => some (.int n, cs2)
      | none => none
    else if c = '-' || c = '+' || c = '*' || c = '/' || c = '(' || c = ')' ||
        c = ',' || c = '=' then
      some (.op (String.singleton c), cs)
    else if c = '<' then
      match cs with
      | [] => none
      | d :: ds =>
        if d = '=' then some (.op "<=", ds)
        else if d = '>' then some (.op "<>", ds)
        else some (.op "<", d :: ds)
    else if c = '>' then
      some (.op ">", c :: cs)
    else if c = '"' then
      match scanStr cs "" with
      | some (s, cs2) => some (.str s, cs2)
      | none => none
    else readTokenCore cs

/-- `TokenReader` state: the one-token peek cache, the `AtEOL` flag, and
the remaining character input. -/
structure TR where
  peeked : Option Tok
  atEOL : Bool
  input : List Char
deriving DecidableEq, Repr

/-- Build a fresh reader over a string, mirroring
`&TokenReader{R: bufio.NewReader(...)}`. -/
def mkTR (s : String) : TR :=
  ⟨none, false, s.data⟩

/-- `TokenReader.ReadToken`: serve the peek cache if set (leaving
`AtEOL` untouched, as the source does), otherwise read from the input
and record whether the token was an end-of-line. -/
def readTokenTR (tr : TR) : Option (Tok × TR) :=
  match tr.peeked with
  | some t => some (t, { tr with peeked := none })
  | none =>
    match readTokenCore tr.input with
    | some (t, rest) => some (t, ⟨none, t == .eol, rest⟩)
    | none => none

/-- `TokenReader.PeekToken`: read and cache one token. -/
def peekTokenTR (tr : TR) : Option (Tok × TR) :=
  match tr.peeked with
  | some t => some (t, tr)
  | none =>
    match readTokenTR tr with
    | some (t, tr2) => some (t, { tr2 with peeked := some t })
    | none => none

/-- The drain loop of `Basic.Error`: read tokens until `AtEOL`.  Fuel
bounds the iterations; on the pathological `>` input the source loops
forever, which surfaces here as fuel exhaustion (`none`), folded into
the fatal outcome. -/
def drainTR : Nat → TR → Option TR
  | 0, _ => none
  | f + 1, tr =>
    if tr.atEOL then some tr
    else
      match readTokenTR tr with
      | some (_, tr2) => drainTR f tr2
      | none => none

/-- `Basic.Error`: emit the message (with its trailing newline) to the
error stream and drain the rest of the current line. -/
def basicError (tr : TR) (msg : String) : Option (TR × String) :=
  match drainTR (tr.input.length + 2) tr with
  | some tr2 => some (tr2, msg ++ "\n")
  | none => none

/-- Runtime values: the dynamic `interface{}` union of Go `int`,
`string`, `bool` flowing through evaluation and variable storage. -/
inductive Value where
  | int (n : Int)
  | str (s : String)
  | bool (b : Bool)
deriving DecidableEq, Repr

/-- Lexicographic order on character lists, matching Go's byte-wise
string comparison (UTF-8 byte order and code-point order agree). -/
def chListLt : List Char → List Char → Bool
  | [], [] => false
  | [], _ :: _ => true
  | _ :: _, [] => false
  | a :: as, b :: bs =>
    if a < b then true
    else if b < a then false
    else chListLt as bs

/-- Go `s1 < s2` on strings. -/
def goStrLt (s1 s2 : String) : Bool :=
  chListLt s1.data s2.data

/-- Go `s1 <= s2` on strings. -/
def goStrLe (s1 s2 : String) : Bool :=
  goStrLt s1 s2 || s1 == s2

/-- Expression trees: `ValueExpr`, `VarExpr`, `NegateExpr`,
`BinaryExpr` (the operator is carried by name; its evaluation rules are
fixed by the `BinaryOps` table below, exactly as the compiled
`BinaryExpr` carries the `BinaryOp` looked up from that map). -/
inductive Expr where
  | value (v : Value)
  | var (s : String)
  | negate (e : Expr)
  | binary (name : String) (left right : Expr)
deriving DecidableEq, Repr

/-- Membership in the `BinaryOps` map. -/
def isBinaryOp (s : String) : Bool :=
  ["+", "-", "*", "/", "=", "<>", "<", "<=", ">", ">="].contains s

/-- Operators whose `BinaryOp` entry has a non-nil `IntegerFunc`
(all ten entries of `BinaryOps`). -/
def hasIntegerFunc (s : String) : Bool :=
  isBinaryOp s

/-- Operators whose `BinaryOp` entry has a non-nil `StringFunc`. -/
def hasStringFunc (s : String) : Bool :=
  ["+", "=", "<>", "<", "<=", ">", ">="].contains s

/-- The `String()` rendering of an expression (`fmt.Stringer`).
`ValueExpr.String` renders a string value *without* quotes;
`BinaryExpr` and `NegateExpr` format their children with `%s`, i.e.
through this method. -/
def exprToString : Expr → String
  | .value (.int n) => toString n
  | .value (.str s) => s
  | .value (.bool b) => if b then "TRUE" else "FALSE"
  | .var s => s
  | .negate e => "- " ++ exprToString e
  | .binary name l r => exprToString l ++ " " ++ name ++ " " ++ exprToString r

/-- The `Print(w)` rendering of an expression.  `ValueExpr.Print`
re-quotes string values, but `NegateExpr.Print` and `BinaryExpr.Print`
format their children with `%s`, which invokes the children's
`String()` method (`exprToString`), not their `Print`. -/
def exprPrint : Expr → String
  | .value (.int n) => toString n
  | .value (.str s) => "\"" ++ s ++ "\""
  | .value (.bool b) => if b then "TRUE" else "FALSE"
  | .var s => s
  | .negate e => "- " ++ exprToString e
  | .binary name l r => exprToString l ++ " " ++ name ++ " " ++ exprToString r

/-- Result of evaluating an expression: a value, a reported
language-level error carrying the exact text written to the error
stream, or a process-fatal fault (a Go runtime panic, here only integer
division by zero). -/
inductive EvalRes where
  | ok (v : Value)
  | err (msg : String)
  | fatal
deriving DecidableEq, Repr

/-- Reduction of an exact integer result to Go's 64-bit
two's-complement `int`: values wrap modulo 2^64 into
`[-2^63, 2^63)`.  The literals are 2^63 and 2^64. -/
def wrap64 (n : Int) : Int :=
  (n + 9223372036854775808) % 18446744073709551616 - 9223372036854775808

/-- The `IntegerFunc` of the named `BinaryOps` entry.  Go `+ - * /` on
`int` are 64-bit two's-complement operations: a result outside the
`int` range wraps (`wrap64`); in particular the quotient
`MinInt64 / -1` wraps back to `MinInt64`, as the Go specification
defines for that overflow.  `/` panics when the divisor is zero
(`.fatal`); otherwise it is truncating division (`Int.tdiv`) followed
by the wrap.  The final branch mirrors the `IntegerFunc == nil` error
and is unreachable for compiled operators. -/
def applyIntegerFunc (name : String) (n1 n2 : Int) : EvalRes :=
  if name = "+" then .ok (.int (wrap64 (n1 + n2)))
  else if name = "-" then .ok (.int (wrap64 (n1 - n2)))
  else if name = "*" then .ok (.int (wrap64 (n1 * n2)))
  else if name = "/" then
    (if n2 = 0 then .fatal else .ok (.int (wrap64 (Int.tdiv n1 n2))))
  else if name = "=" then .ok (.bool (n1 == n2))
  else if name = "<>" then .ok (.bool (n1 != n2))
  else if name = "<" then .ok (.bool (decide (n1 < n2)))
  else if name = "<=" then .ok (.bool (decide (n1 ≤ n2)))
  else if name = ">" then .ok (.bool (decide (n2 < n1)))
  else if name = ">=" then .ok (.bool (decide (n2 ≤ n1)))
  else .err ("basic: error: " ++ name ++ " does not work for integers\n")

/-- The `StringFunc` of the named `BinaryOps` entry.  The final branch
is unreachable: operators without a `StringFunc` are rejected earlier
by the `nil` check in `BinaryExpr.Eval`. -/
def applyStringFunc (name : String) (s1 s2 : String) : EvalRes :=
  if name = "+" then .ok (.str (s1 ++ s2))
  else if name = "=" then .ok (.bool (s1 == s2))
  else if name = "<>" then .ok (.bool (s1 != s2))
  else if name = "<" then .ok (.bool (goStrLt s1 s2))
  else if name = "<=" then .ok (.bool (goStrLe s1 s2))
  else if name = ">" then .ok (.bool (goStrLt s2 s1))
  else if name = ">=" then .ok (.bool (goStrLe s2 s1))
  else .err ("basic: error: " ++ name ++ " does not work for strings\n")

/-- The body of `BinaryExpr.Eval` after both operands evaluated: switch
on the left value's tag, check the per-tag function for nil, then
require the right value to carry the same tag. -/
def applyBinary (name : String) (v1 v2 : Value) : EvalRes :=
  match v1 with
  | .int n1 =>
    if hasIntegerFunc name then
      match v2 with
      | .int n2 => applyIntegerFunc name n1 n2
      | _ => .err "basic: error: expected an integer value\n"
    else .err ("basic: error: " ++ name ++ " does not work for integers\n")
  | .str s1 =>
    if hasStringFunc name then
      match v2 with
      | .str s2 => applyStringFunc name s1 s2
      | _ => .err "basic: error: expected a string value\n"
    else .err ("basic: error: " ++ name ++ " does not work for strings\n")
  | .bool _ => .err ("basic: error: " ++ name ++ " does not work for booleans\n")

/-- Variable lookup in the flat name-to-value mapping (`b.Vars`),
modelled as an association list. -/
def varsLookup : List (String × Value) → String → Option Value
  | [], _ => none
  | (k, v) :: rest, s => if k = s then some v else varsLookup rest s

/-- Variable store/update (`b.Vars[name] = val`). -/
def varsInsert : List (String × Value) → String → Value → List (String × Value)
  | [], k, v => [(k, v)]
  | (k0, v0) :: rest, k, v =>
    if k0 = k then (k, v) :: rest else (k0, v0) :: varsInsert rest k v

/-- Expression evaluation (`Expr.Eval`): literals return their value;
variables look up the mapping; negate requires an integer; a binary
operator evaluates left then right and dispatches on the left tag. -/
def evalExpr (vs : List (String × Value)) : Expr → EvalRes
  | .value v => .ok v
  | .var s =>
    match varsLookup vs s with
    | some v => .ok v
    | none => .err ("basic: error: variable not found: " ++ s ++ "\n")
  | .negate e =>
    match evalExpr vs e with
    | .ok (.int n) => .ok (.int (wrap64 (-n)))
    | .ok _ => .err "basic: error: expected an integer value\n"
    | r => r
  | .binary name l r =>
    match evalExpr vs l with
    | .ok v1 =>
      (match evalExpr vs r with
       | .ok v2 => applyBinary name v1 v2
       | r2 => r2)
    | r1 => r1

/-- Call-context kind constants `GoSubCtx`, `ForCtx`, `WhileCtx`. -/
def goSubCtx : Nat := 0

/-- `ForCtx` (declared but never pushed by the current statements). -/
def forCtx : Nat := 1

/-- `WhileCtx` (declared but never pushed by the current statements). -/
def whileCtx : Nat := 2

/-- One call-context stack frame (`Ctx`): a kind tag and a line number. -/
structure Ctx where
  type : Nat
  number : Int
deriving DecidableEq, Repr

/-- Statement trees.  `ifThen` carries its branches as `Option Stmt`
because the Go compiler can produce a nil statement (the unimplemented
`FOR`/`NEXT`/`INPUT`/`WHILE`/`WEND` keywords compile "successfully" to
nil); a nil `Then` executed, like any nil statement, is a runtime
panic, while a nil `Else` is indistinguishable from an absent one. -/
inductive Stmt where
  | end_
  | gosub (n : Int)
  | ret
  | goto (n : Int)
  | rem (s : String)
  | assign (v : String) (e : Expr)
  | print (es : List Expr)
  | ifThen (test : Expr) (thenB : Option Stmt) (elseB : Option Stmt)
  | ifGoto (test : Expr) (n : Int)

/-- Boolean equality on statements (hand-written because of the nested
`Option Stmt` fields). -/
def stmtBeq : Stmt → Stmt → Bool
  | .end_, .end_ => true
  | .gosub n, .gosub m => n == m
  | .ret, .ret => true
  | .goto n, .goto m => n == m
  | .rem s, .rem t => s == t
  | .assign v e, .assign w f => v == w && e == f
  | .print es, .print fs => es == fs
  | .ifThen t th el, .ifThen t2 th2 el2 =>
    t == t2 && stmtOBeq th th2 && stmtOBeq el el2
  | .ifGoto t n, .ifGoto t2 m => t == t2 && n == m
  | _, _ => false
where
  /-- Boolean equality on optional statements. -/
  stmtOBeq : Option Stmt → Option Stmt → Bool
  | none, none => true
  | some a, some b => stmtBeq a b
  | _, _ => false

mutual

theorem stmtBeq_eq : ∀ a b : Stmt, stmtBeq a b = true ↔ a = b
  | .end_, b => by cases b <;> simp [stmtBeq]
  | .gosub n, b => by cases b <;> simp [stmtBeq]
  | .ret, b => by cases b <;> simp [stmtBeq]
  | .goto n, b => by cases b <;> simp [stmtBeq]
  | .rem s, b => by cases b <;> simp [stmtBeq]
  | .assign v e, b => by cases b <;> simp [stmtBeq]
  | .print es, b => by cases b <;> simp [stmtBeq]
  | .ifThen t th el, b => by
    cases b <;> simp [stmtBeq, stmtOBeq_eq th _, stmtOBeq_eq el _, and_assoc]
  | .ifGoto t n, b => by cases b <;> simp [stmtBeq]

theorem stmtOBeq_eq : ∀ a b : Option Stmt, stmtBeq.stmtOBeq a b = true ↔ a = b
  | none, none => by simp [stmtBeq.stmtOBeq]
  | none, some _ => by simp [stmtBeq.stmtOBeq]
  | some _, none => by simp [stmtBeq.stmtOBeq]
  | some x, some y => by simp [stmtBeq.stmtOBeq, stmtBeq_eq x y]

end

instance : DecidableEq Stmt := fun a b => decidable_of_iff _ (stmtBeq_eq a b)

/-- Comma-separated rendering of a `PrintStmt`'s expressions, each via
`Expr.Print`. -/
def printExprList : List Expr → String
  | [] => ""
  | [e] => exprPrint e
  | e :: es => exprPrint e ++ ", " ++ printExprList es

/-- The `Print(w)` rendering of one non-nil statement, used by `LIST`
and `SAVE`.  The result is `none` when a nested `Then`/`Else` branch is
the Go nil statement, whose `Print` call would panic.  `IfThenStmt` and
`IfGotoStmt` format their test with `%s` (the `String()` method, which
does not re-quote string literals). -/
def stmtPrintCore : Stmt → Option String
  | .end_ => some "END"
  | .gosub n => some ("GOSUB " ++ toString n)
  | .ret => some "RETURN"
  | .goto n => some ("GOTO " ++ toString n)
  | .rem s => some ("REM " ++ s)
  | .assign v e => some (v ++ " = " ++ exprPrint e)
  | .print es => some ("PRINT " ++ printExprList es)
  | .ifThen t th el =>
    (match th with
     | none => none
     | some sth =>
       match stmtPrintCore sth with
       | none => none
       | some ss =>
         match el with
         | none => some ("IF " ++ exprToString t ++ " THEN " ++ ss)
         | some e =>
           match stmtPrintCore e with
           | none => none
           | some es => some ("IF " ++ exprToString t ++ " THEN " ++ ss ++ " ELSE " ++ es))
  | .ifGoto t n => some ("IF " ++ exprToString t ++ " GOTO " ++ toString n)

/-- Rendering of a stored (possibly nil) statement: the `Print` call on
the Go nil statement interface panics. -/
def stmtPrint : Option Stmt → Option String
  | none => none
  | some s => stmtPrintCore s

instance : Repr Stmt := ⟨fun s _ => repr (stmtPrintCore s)⟩

/-- One stored program line: `Line{Number, Stmt}` (the statement is an
`Option` because the store can hold a nil statement, see `Stmt`). -/
structure Line where
  number : Int
  stmt : Option Stmt
deriving DecidableEq, Repr

/-- Interpreter state: the variable mapping, the program store (the
btree of `Line`s ordered by `Less`, i.e. by line number, modelled per
its documented contract as a strictly sorted list), and the output and
error streams. -/
structure BState where
  vars : List (String × Value)
  code : List Line
  out : String
  errOut : String
deriving DecidableEq, Repr

/-- `btree.ReplaceOrInsert` on the ordered store: insert by key,
replacing an equal key. -/
def storeInsert : List Line → Line → List Line
  | [], l => [l]
  | x :: xs, l =>
    if l.number < x.number then l :: x :: xs
    else if l.number = x.number then l :: xs
    else x :: storeInsert xs l

/-- `btree.Delete` of one exact line number. -/
def storeDelete (ls : List Line) (n : Int) : List Line :=
  ls.filter (fun l => l.number ≠ n)

/-- `btree.AscendGreaterOrEqual` with a callback that keeps only the
first item: the first stored line with number ≥ `n`. -/
def firstGE (ls : List Line) (n : Int) : Option Line :=
  ls.find? (fun l => n ≤ l.number)

/-- Rendering of a printed value in `PrintStmt.Execute` (`%d` for
integers, the raw text for strings, `TRUE`/`FALSE` for booleans). -/
def printValue : Value → String
  | .int n => toString n
  | .str s => s
  | .bool b => if b then "TRUE" else "FALSE"

/-- The loop body of `ReturnStmt.Execute`, scanning the stack from the
top (the stack is passed reversed: Go pushes with `append` and pops
from the slice end). -/
def returnScanRev : List Ctx → Option (Int × List Ctx)
  | [] => none
  | c :: rest =>
    if c.type = goSubCtx then some (c.number + 1, rest)
    else returnScanRev rest

/-- The `PrintStmt.Execute` loop: before every expression but the
first, the `", "` separator is written; each expression is evaluated
and its value written; a reported evaluation error writes its message
and stops the loop with failure. -/
def printEval : List Expr → Bool → BState → Option (BState × Bool)
  | [], _, b => some (b, true)
  | e :: es, first, b =>
    let b1 := if first then b else { b with out := b.out ++ ", " }
    match evalExpr b1.vars e with
    | .ok v => printEval es false { b1 with out := b1.out ++ printValue v }
    | .err m => some ({ b1 with errOut := b1.errOut ++ m }, false)
    | .fatal => none

/-- `Stmt.Execute`: given the current line number and call-context
stack, produce the updated state, the next-line value (≤ 0 halts), and
the updated stack.  `none` is a Go runtime panic (nil statement call,
division by zero, or a compiled variable name that is neither
`$`- nor `%`-suffixed). -/
def execStmt : Stmt → BState → Int → List Ctx → Option (BState × Int × List Ctx)
  | .end_, b, _, stk => some (b, -1, stk)
  | .gosub n, b, ln, stk => some (b, n, stk ++ [⟨goSubCtx, ln⟩])
  | .ret, b, _, stk =>
    (match returnScanRev stk.reverse with
     | some (n2, restRev) => some (b, n2, restRev.reverse)
     | none =>
       some ({ b with errOut := b.errOut ++ "basic: error: RETURN without a GOSUB\n" },
         -1, []))
  | .goto n, b, _, stk => some (b, n, stk)
  | .rem _, b, ln, stk => some (b, ln + 1, stk)
  | .assign v e, b, ln, stk =>
    (match evalExpr b.vars e with
     | .fatal => none
     | .err m => some ({ b with errOut := b.errOut ++ m }, -1, stk)
     | .ok val =>
       match v.data.getLast? with
       | some '$' =>
         (match val with
          | .str _ => some ({ b with vars := varsInsert b.vars v val }, ln + 1, stk)
          | _ =>
            some ({ b with errOut := b.errOut ++ "basic: error: expected a string value\n" },
              -1, stk))
       | some '%' =>
         (match val with
          | .int _ => some ({ b with vars := varsInsert b.vars v val }, ln + 1, stk)
          | _ =>
            some ({ b with errOut := b.errOut ++ "basic: error: expected an integer value\n" },
              -1, stk))
       | _ => none)
  | .print es, b, ln, stk =>
    (match printEval es true b with
     | none => none
     | some (b2, true) => some ({ b2 with out := b2.out ++ "\n" }, ln + 1, stk)
     | some (b2, false) => some (b2, -1, stk))
  | .ifThen test th el, b, ln, stk =>
    (match evalExpr b.vars test with
     | .fatal => none
     | .err m => some ({ b with errOut := b.errOut ++ m }, -1, stk)
     | .ok (.bool t) =>
       if t then
         match th with
         | some st => execStmt st b ln stk
         | none => none
       else
         match el with
         | some st => execStmt st b ln stk
         | none => some (b, ln + 1, stk)
     | .ok _ =>
       some ({ b with errOut := b.errOut ++ "basic: error: expected a boolean value\n" },
         -1, stk))
  | .ifGoto test n, b, ln, stk =>
    (match evalExpr b.vars test with
     | .fatal => none
     | .err m => some ({ b with errOut := b.errOut ++ m }, -1, stk)
     | .ok (.bool t) => if t then some (b, n, stk) else some (b, ln + 1, stk)
     | .ok _ =>
       some ({ b with errOut := b.errOut ++ "basic: error: expected a boolean value\n" },
         -1, stk))

/-- Execution of a stored (possibly nil) statement: calling any method
on the Go nil statement interface panics. -/
def execLineStmt : Option Stmt → BState → Int → List Ctx → Option (BState × Int × List Ctx)
  | none, _, _, _ => none
  | some st, b, ln, stk => execStmt st b ln stk

/-- Outcome of running the stored program. -/
inductive RunRes where
  | done (b : BState)
  | panicked (b : BState)
  | out
deriving DecidableEq, Repr

/-- The `Basic.Run` loop: fetch the first line at or after the current
position; the zero value of `Line` doubles as the not-found sentinel
(`line.Number == 0` halts); execute, and halt when the returned
next-line value is ≤ 0.  Fuel bounds the iterations of a possibly
non-terminating program; exhaustion is `RunRes.out`. -/
def runLoop : Nat → BState → Int → List Ctx → RunRes
  | 0, _, _, _ => .out
  | f + 1, b, ln, stk =>
    match firstGE b.code ln with
    | none => .done b
    | some line =>
      if line.number = 0 then .done b
      else
        match execLineStmt line.stmt b line.number stk with
        | none => .panicked b
        | some (b2, ln2, stk2) =>
          if ln2 ≤ 0 then .done b2 else runLoop f b2 ln2 stk2

/-- `Basic.Run`: start positioned at line 0 with an empty stack. -/
def run (fuel : Nat) (b : BState) : RunRes :=
  runLoop fuel b 0 []

/-- Result of a compile call: success with the compiled value, a
reported compile error (after `Basic.Error` drained the line), or a
process-fatal event.  `tr` is the reader afterwards and `msgs` the text
appended to the error stream during the call. -/
inductive CRes (α : Type) where
  | ok (a : α) (tr : TR) (msgs : String)
  | err (tr : TR) (msgs : String)
  | fatal
deriving DecidableEq, Repr

/-- `Basic.CompileExpr`: a primary (integer literal, string literal,
variable, unary negate, or parenthesized sub-expression), optionally
followed by one binary operator whose right operand is compiled by a
full recursive call.  The fuel argument bounds the recursion depth; it
only decreases at recursive `CompileExpr` calls. -/
def compileExpr : Nat → TR → CRes Expr
  | 0, _ => .fatal
  | f + 1, tr =>
    let primary : CRes Expr :=
      match readTokenTR tr with
      | none => .fatal
      | some (.int n, tr1) => .ok (.value (.int n)) tr1 ""
      | some (.str s, tr1) => .ok (.value (.str s)) tr1 ""
      | some (.kw s, tr1) => .ok (.var s) tr1 ""
      | some (.op "-", tr1) =>
        (match compileExpr f tr1 with
         | .ok e tr2 m => .ok (.negate e) tr2 m
         | r => r)
      | some (.op "(", tr1) =>
        (match compileExpr f tr1 with
         | .ok e tr2 m =>
           (match readTokenTR tr2 with
            | some (.op ")", tr3) => .ok e tr3 m
            | some (_, tr3) =>
              (match basicError tr3 "basic: error: missing closing ) in expression" with
               | some (tr4, m2) => .err tr4 (m ++ m2)
               | none => .fatal)
            | none => .fatal)
         | r => r)
      | some (_, tr1) =>
        (match basicError tr1 "basic: error: unexpected token in expression" with
         | some (tr2, m) => .err tr2 m
         | none => .fatal)
    match primary with
    | .ok e tr1 m =>
      (match peekTokenTR tr1 with
       | none => .fatal
       | some (.op s, tr2) =>
         if isBinaryOp s then
           match readTokenTR tr2 with
           | none => .fatal
           | some (_, tr3) =>
             (match compileExpr f tr3 with
              | .ok e2 tr4 m2 => .ok (.binary s e e2) tr4 (m ++ m2)
              | .err tr4 m2 => .err tr4 (m ++ m2)
              | .fatal => .fatal)
         else .ok e tr2 m
       | some (_, tr2) => .ok e tr2 m)
    | r => r

/-- The `PRINT` compile loop: expressions separated by commas. -/
def compilePrintList : Nat → TR → List Expr → String → CRes (List Expr)
  | 0, _, _, _ => .fatal
  | f + 1, tr, acc, m =>
    match compileExpr f tr with
    | .fatal => .fatal
    | .err tr1 m2 => .err tr1 (m ++ m2)
    | .ok e tr1 m2 =>
      match peekTokenTR tr1 with
      | none => .fatal
      | some (.op ",", tr2) =>
        (match readTokenTR tr2 with
         | some (_, tr3) => compilePrintList f tr3 (acc ++ [e]) (m ++ m2)
         | none => .fatal)
      | some (_, tr2) => .ok (acc ++ [e]) tr2 (m ++ m2)

/-- The `REM` branch of `CompileKeyword`: the rest of the line is read
at the character level (bypassing the tokenizer and any peeked token)
and the newline is pushed back. -/
def scanRem : List Char → String → Option (String × List Char)
  | [], _ => none
  | c :: cs, acc =>
    if c = '\n' then some (acc, c :: cs)
    else scanRem cs (acc.push c)

/-- Does the identifier end in the given suffix character
(`kw[len(kw)-1]` in Go)? -/
def lastCharIs (s : String) (c : Char) : Bool :=
  s.data.getLast? == some c

mutual

/-- `Basic.CompileKeyword`: dispatch on the leading keyword and build
one statement.  The unimplemented keywords (`FOR`, `NEXT`, `INPUT`,
`WHILE`, `WEND`) fall through with a nil statement and report success,
exactly as the source's empty `case` arms do.  When `full` is set, an
end-of-line token is demanded after the statement body.  Fuel
decreases at the mutual calls into `compileStatement` for `THEN`/`ELSE`
branches. -/
def compileKeyword : Nat → String → Bool → TR → CRes (Option Stmt)
  | 0, _, _, _ => .fatal
  | f + 1, kw, full, tr =>
    let core : CRes (Option Stmt) :=
      if kw = "END" then .ok (some .end_) tr ""
      else if kw = "FOR" then .ok none tr ""
      else if kw = "NEXT" then .ok none tr ""
      else if kw = "GOSUB" then
        match readTokenTR tr with
        | none => .fatal
        | some (.int n, tr1) => .ok (some (.gosub n)) tr1 ""
        | some (_, tr1) =>
          (match basicError tr1 "basic: error: missing line number for GOSUB" with
           | some (tr2, m) => .err tr2 m
           | none => .fatal)
      else if kw = "RETURN" then .ok (some .ret) tr ""
      else if kw = "GOTO" then
        match readTokenTR tr with
        | none => .fatal
        | some (.int n, tr1) => .ok (some (.goto n)) tr1 ""
        | some (_, tr1) =>
          (match basicError tr1 "basic: error: missing line number for GOTO" with
           | some (tr2, m) => .err tr2 m
           | none => .fatal)
      else if kw = "IF" then
        match compileExpr (f + 1) tr with
        | .fatal => .fatal
        | .err tr1 m => .err tr1 m
        | .ok e tr1 m =>
          match readTokenTR tr1 with
          | none => .fatal
          | some (.kw "THEN", tr2) =>
            (match compileStatement f false tr2 with
             | .fatal => .fatal
             | .err tr3 m2 => .err tr3 (m ++ m2)
             | .ok thenS tr3 m2 =>
               match peekTokenTR tr3 with
               | none => .fatal
               | some (.kw "ELSE", tr4) =>
                 (match readTokenTR tr4 with
                  | none => .fatal
                  | some (_, tr5) =>
                    match compileStatement f false tr5 with
                    | .fatal => .fatal
                    | .err tr6 m3 => .err tr6 (m ++ m2 ++ m3)
                    | .ok elseS tr6 m3 =>
                      .ok (some (.ifThen e thenS elseS)) tr6 (m ++ m2 ++ m3))
               | some (_, tr4) => .ok (some (.ifThen e thenS none)) tr4 (m ++ m2))
          | some (.kw "GOTO", tr2) =>
            (match readTokenTR tr2 with
             | none => .fatal
             | some (.int n, tr3) => .ok (some (.ifGoto e n)) tr3 m
             | some (_, tr3) =>
               match basicError tr3 "basic: error: missing line number for IF GOTO" with
               | some (tr4, m2) => .err tr4 (m ++ m2)
               | none => .fatal)
          | some (_, tr2) =>
            (match basicError tr2 "basic: error: expected IF followed by THEN or GOTO" with
             | some (tr3, m2) => .err tr3 (m ++ m2)
             | none => .fatal)
      else if kw = "INPUT" then .ok none tr ""
      else if kw = "PRINT" then
        match compilePrintList (tr.input.length + 2) tr [] "" with
        | .fatal => .fatal
        | .err tr1 m => .err tr1 m
        | .ok es tr1 m => .ok (some (.print es)) tr1 m
      else if kw = "REM" then
        match scanRem tr.input "" with
        | none => .fatal
        | some (s, rest) => .ok (some (.rem s)) { tr with input := rest } ""
      else if kw = "WHILE" then .ok none tr ""
      else if kw = "WEND" then .ok none tr ""
      else if lastCharIs kw '$' || lastCharIs kw '%' then
        match readTokenTR tr with
        | none => .fatal
        | some (.op "=", tr1) =>
          (match compileExpr (tr1.input.length + 2) tr1 with
           | .fatal => .fatal
           | .err tr2 m => .err tr2 m
           | .ok e tr2 m => .ok (some (.assign kw e)) tr2 m)
        | some (_, tr1) =>
          (match basicError tr1 "basic: error: expected '=' following variable name" with
           | some (tr2, m) => .err tr2 m
           | none => .fatal)
      else
        match basicError tr ("basic: error: unknown keyword: " ++ kw) with
        | some (tr1, m) => .err tr1 m
        | none => .fatal
    match core with
    | .ok os tr1 m =>
      if full then
        match readTokenTR tr1 with
        | none => .fatal
        | some (.eol, tr2) => .ok os tr2 m
        | some (_, tr2) =>
          (match basicError tr2 ("basic: error: too many argument to keyword: " ++ kw) with
           | some (tr3, m2) => .err tr3 (m ++ m2)
           | none => .fatal)
      else .ok os tr1 m
    | r => r

/-- `Basic.CompileStatement`: read one keyword token and dispatch. -/
def compileStatement : Nat → Bool → TR → CRes (Option Stmt)
  | 0, _, _ => .fatal
  | f + 1, full, tr =>
    match readTokenTR tr with
    | none => .fatal
    | some (.kw s, tr1) => compileKeyword f s full tr1
    | some (_, tr1) =>
      match basicError tr1 "basic: error: statement must start with a keyword or variable" with
      | some (tr2, m) => .err tr2 m
      | none => .fatal

end

/-- The blank-skipping loop at the top of `Basic.Load` and
`Basic.Program`: runes are read directly (bypassing the token peek
cache) while they are spaces or newlines; EOF here is the normal exit. -/
def skipBlanks : List Char → List Char
  | [] => []
  | c :: cs => if c = ' ' || c = '\n' then skipBlanks cs else c :: cs

/-- The loop of `Basic.Load` over the opened file's characters: each
iteration skips blanks (EOF means success), requires an integer
line-number token, compiles one full statement, and inserts it; a
non-number start or a compile failure breaks out with failure.  The
accumulated `msgs` is the text written to the error stream.  `none` is
a process-fatal event or a diverging drain. -/
def loadLoop : Nat → TR → List Line → String → Option (Option (List Line) × String)
  | 0, _, _, _ => none
  | f + 1, tr, code, msgs =>
    let rest := skipBlanks tr.input
    if rest = [] then some (some code, msgs)
    else
      let tr1 : TR := ⟨tr.peeked, tr.atEOL, rest⟩
      match readTokenTR tr1 with
      | none => none
      | some (.int n, tr2) =>
        (match compileStatement (tr2.input.length + 2) true tr2 with
         | .ok os tr3 m2 => loadLoop f tr3 (storeInsert code ⟨n, os⟩) (msgs ++ m2)
         | .err _ m2 => some (none, msgs ++ m2)
         | .fatal => none)
      | some (_, tr2) =>
        match basicError tr2 "basic: error: statement must start with a line number" with
        | some (_, m2) => some (none, msgs ++ m2)
        | none => none

/-- `Basic.Load` applied to the opened file's character contents: the
current variables and code are saved, the interpreter is reset
(`b.New()`), the file is scanned; on success the function returns
`true` leaving the freshly built store and the *fresh empty variable
map* in place, and on failure it restores the saved variables and code
and returns `false`.  Error text emitted while scanning stays on the
error stream either way. -/
def load (b : BState) (content : List Char) : Option (BState × Bool) :=
  match loadLoop (content.length + 1) ⟨none, false, content⟩ [] "" with
  | none => none
  | some (some newCode, msgs) =>
    some ({ vars := [], code := newCode, out := b.out, errOut := b.errOut ++ msgs }, true)
  | some (none, msgs) =>
    some ({ b with errOut := b.errOut ++ msgs }, false)

/-- The numbered-line branch of the `Basic.Program` loop (after the
leading integer token `n` was read): compile one full statement and,
on success, `ReplaceOrInsert` it into the store under `n` — with no
check that `n` is positive. -/
def programNumberedLine (fuel : Nat) (b : BState) (n : Int) (tr : TR) :
    Option (BState × TR) :=
  match compileStatement fuel true tr with
  | .ok os tr2 msgs =>
    some ({ b with code := storeInsert b.code ⟨n, os⟩, errOut := b.errOut ++ msgs }, tr2)
  | .err tr2 msgs => some ({ b with errOut := b.errOut ++ msgs }, tr2)
  | .fatal => none

/-- The default branch of the `Basic.Program` keyword switch: compile
the keyword as a full statement and execute it immediately with line
context 0 and a nil call stack, discarding the returned next-line
value and stack (`stmt.Execute(b, 0, nil)` as a bare statement).  A nil
compiled statement makes the `Execute` call panic. -/
def programImmediate (fuel : Nat) (b : BState) (kw : String) (tr : TR) :
    Option (BState × TR) :=
  match compileKeyword fuel kw true tr with
  | .ok (some st) tr2 msgs =>
    (match execStmt st { b with errOut := b.errOut ++ msgs } 0 [] with
     | some (b2, _, _) => some (b2, tr2)
     | none => none)
  | .ok none _ _ => none
  | .err tr2 msgs => some ({ b with errOut := b.errOut ++ msgs }, tr2)
  | .fatal => none

/-- Immediate execution of one compiled statement, line context 0 and
empty stack, next-line value and updated stack discarded (the
`stmt.Execute(b, 0, nil)` call in `Basic.Program`). -/
def execImmediate (b : BState) (st : Stmt) : Option BState :=
  match execStmt st b 0 [] with
  | some (b2, _, _) => some b2
  | none => none

/-- A character sequence lexes as the integer literal `a`: when
followed by any non-digit character, the scanner returns the integer
token `a` and pushes that character back. -/
def LexesInt (s : List Char) (a : Int) : Prop :=
  ∀ c rest, isDigitCh c = false →
    readTokenCore (s ++ c :: rest) = some (.int a, c :: rest)

theorem lexesInt_space {s : List Char} {a : Int} (H : LexesInt s a)
    (rest : List Char) :
    readTokenCore (s ++ ' ' :: rest) = some (.int a, ' ' :: rest) :=
  H ' ' rest rfl

theorem lexesInt_nl {s : List Char} {a : Int} (H : LexesInt s a)
    (rest : List Char) :
    readTokenCore (s ++ '\n' :: rest) = some (.int a, '\n' :: rest) :=
  H '\n' rest rfl

theorem readTokenCore_space (l : List Char) :
    readTokenCore (' ' :: l) = readTokenCore l := rfl

theorem readTokenCore_nl (l : List Char) :
    readTokenCore ('\n' :: l) = some (.eol, l) := rfl

theorem returnScanRev_skip {l1 : List Ctx} (h : ∀ cx ∈ l1, cx.type ≠ goSubCtx)
    (l2 : List Ctx) : returnScanRev (l1 ++ l2) = returnScanRev l2 := by
  induction l1 with
  | nil => rfl
  | cons c cs ih =>
    have hc : c.type ≠ goSubCtx := h c (by simp)
    simp only [List.cons_append, returnScanRev, if_neg hc]
    exact ih (fun cx hcx => h cx (by simp [hcx]))

theorem returnScanRev_none {l : List Ctx} (h : ∀ cx ∈ l, cx.type ≠ goSubCtx) :
    returnScanRev l = none := by
  have := returnScanRev_skip h ([] : List Ctx)
  simpa using this

theorem firstGE_none {ls : List Line} {n : Int} (h : firstGE ls n = none) :
    ∀ l ∈ ls, l.number < n := by
  intro l hl
  have := List.find?_eq_none.mp h l hl
  simpa using this

theorem firstGE_least {ls : List Line} {n : Int} {l : Line}
    (hs : List.Pairwise (fun a b => a.number < b.number) ls)
    (h : firstGE ls n = some l) :
    n ≤ l.number ∧ ∀ m ∈ ls, n ≤ m.number → l.number ≤ m.number := by
  induction ls with
  | nil => simp [firstGE] at h
  | cons x xs ih =>
    rw [firstGE, List.find?_cons] at h
    by_cases hx : n ≤ x.number
    · rw [decide_eq_true hx] at h
      obtain rfl : x = l := by simpa using h
      refine ⟨hx, ?_⟩
      intro m hm _
      rcases List.mem_cons.mp hm with rfl | hm2
      · exact le_refl _
      · exact le_of_lt ((List.pairwise_cons.mp hs).1 m hm2)
    · rw [decide_eq_false hx] at h
      obtain ⟨h1, h2⟩ := ih (List.pairwise_cons.mp hs).2 h
      refine ⟨h1, ?_⟩
      intro m hm hnm
      rcases List.mem_cons.mp hm with rfl | hm2
      · exact absurd hnm hx
      · exact h2 m hm2 hnm

/-- C2: the scanner's handling of the two-character operator forms
after `<` and `>`.  The claim states that `<=`, `<>` and `>=` each lex
as their single two-character operator token.  The first two do, by
one character of lookahead; but on `>=` the code compares the
*unadvanced* character with `'='` (a branch that can never fire) and
then pushes the `'>'` itself back, so the scanner returns the
one-character token `>` while consuming nothing, and `>=` never lexes
as `>=`.  This theorem evaluates the scanner on the three inputs. -/
theorem c2_scanner_two_char_lookahead (rest : List Char) :
    readTokenCore ('<' :: '=' :: rest) = some (.op "<=", rest) ∧
    readTokenCore ('<' :: '>' :: rest) = some (.op "<>", rest) ∧
    readTokenCore ('>' :: '=' :: rest) = some (.op ">", '>' :: '=' :: rest) :=
  ⟨rfl, rfl, rfl⟩

/-- C4: the claim states every stored line number is strictly positive
and line 0 is never stored.  But the numbered-line branch of
`Basic.Program` stores whatever line number was entered with no
positivity check: entering `0 print 1` stores a line numbered 0, and
`Basic.Run` — whose fetch treats `Number == 0` as its not-found
sentinel — then halts immediately, treating the program as empty.
This theorem evaluates that failing input. -/
theorem c4_line_zero_stored :
    readTokenTR (mkTR "0 print 1\n") =
      some (.int 0, ⟨none, false, " print 1\n".data⟩) ∧
    programNumberedLine 32 ⟨[], [], "", ""⟩ 0 ⟨none, false, " print 1\n".data⟩ =
      some (⟨[], [⟨0, some (.print [.value (.int 1)])⟩], "", ""⟩, ⟨none, true, []⟩) ∧
    runLoop 9 ⟨[], [⟨0, some (.print [.value (.int 1)])⟩], "", ""⟩ 0 [] =
      .done ⟨[], [⟨0, some (.print [.value (.int 1)])⟩], "", ""⟩ := by
  refine ⟨by decide, by decide, by decide⟩

/-- C10: a statement executed in immediate mode runs with line context
0 and a nil call stack, and the REPL discards the returned next-line
value and updated stack: an immediate `GOTO` leaves the whole state
unchanged (in particular it does not start the stored program), an
immediate `GOSUB` retains no call frame, and in general the post-state
is exactly the state component of the `Execute` result, whatever
next-line value and stack it returned. -/
theorem c10_immediate_discards_control (b : BState) (n : Int) :
    execImmediate b (.goto n) = some b ∧
    execImmediate b (.gosub n) = some b ∧
    (∀ st b2 ln2 stk2, execStmt st b 0 [] = some (b2, ln2, stk2) →
      execImmediate b st = some b2) := by
  refine ⟨rfl, rfl, ?_⟩
  intro st b2 ln2 stk2 h
  unfold execImmediate
  rw [h]

/-- Witness for C10 at a concrete input: an immediate `GOSUB 40` on
the empty state returned next-line 40 and a pushed frame, both of
which are discarded — the post-state is the unchanged state. -/
theorem c10_witness :
    execImmediate ⟨[], [], "", ""⟩ (.gosub 40) = some ⟨[], [], "", ""⟩ :=
  (c10_immediate_discards_control ⟨[], [], "", ""⟩ 40).2.2 (.gosub 40)
    ⟨[], [], "", ""⟩ 40 [⟨goSubCtx, 0⟩] (by decide)

/-- Truncation characterization of Go integer division: the quotient's
magnitude is the floor of the magnitudes' quotient and its sign is the
product of the operands' signs — i.e. rounding is toward zero. -/
theorem int_tdiv_sign_natAbs (a b : Int) :
    a.tdiv b = a.sign * b.sign * ((a.natAbs / b.natAbs : Nat) : Int) := by
  rcases a with m | m <;> rcases b with n | n <;>
    simp [Int.tdiv] <;> rcases m with _ | m <;> rcases n with _ | n <;>
    simp [Int.sign]

/-- Identity of the 64-bit wrap on in-range values. -/
theorem wrap64_eq_self {n : Int} (h1 : -9223372036854775808 ≤ n)
    (h2 : n < 9223372036854775808) : wrap64 n = n := by
  unfold wrap64
  omega

/-- C9 counterexample: the claim states that `/` truncates toward zero
for every pair of integer operands.  At the one overflowing pair —
dividend MinInt64 = -2^63, divisor -1 — Go's two's-complement `int`
division wraps the exact quotient 2^63 back to -2^63 (as the Go
specification defines), which is not the toward-zero truncation
(sign product · ⌊|a|/|b|⌋ = +2^63) the claim requires there. -/
theorem c9_division_counterexample :
    evalExpr [] (.binary "/" (.value (.int (-9223372036854775808)))
        (.value (.int (-1)))) = .ok (.int (-9223372036854775808)) ∧
    (-9223372036854775808 : Int) ≠
      (-9223372036854775808 : Int).sign * (-1 : Int).sign *
        (((-9223372036854775808 : Int).natAbs / (-1 : Int).natAbs : Nat) : Int) :=
  ⟨by decide, by decide⟩

/-- C9 (amended): for every pair of in-range 64-bit integer operands
other than the single overflowing pair (dividend -2^63, divisor -1),
the division operator `/` truncates toward zero (quotient magnitude
`⌊|a|/|b|⌋`, quotient sign the product of the operand signs) — at that
excluded pair two's-complement overflow wraps the quotient back to
-2^63 — and for every integer dividend a zero divisor makes the
evaluation fail explicitly (the Go runtime's integer-divide fault,
modelled as the fatal outcome), never a silently produced value. -/
theorem c9_division_truncates_divzero_faults (vs : List (String × Value)) (a b : Int)
    (ha1 : -9223372036854775808 ≤ a) (ha2 : a < 9223372036854775808)
    (hb1 : -9223372036854775808 ≤ b) (hb2 : b < 9223372036854775808) :
    (b ≠ 0 → ¬(a = -9223372036854775808 ∧ b = -1) →
      evalExpr vs (.binary "/" (.value (.int a)) (.value (.int b))) =
        .ok (.int (a.sign * b.sign * ((a.natAbs / b.natAbs : Nat) : Int)))) ∧
    evalExpr vs (.binary "/" (.value (.int (-9223372036854775808)))
        (.value (.int (-1)))) = .ok (.int (-9223372036854775808)) ∧
    evalExpr vs (.binary "/" (.value (.int a)) (.value (.int 0))) = .fatal := by
  have base : ∀ x y : Int,
      evalExpr vs (.binary "/" (.value (.int x)) (.value (.int y))) =
        if y = 0 then .fatal else .ok (.int (wrap64 (x.tdiv y))) := fun x y => rfl
  refine ⟨?_, by rw [base]; decide, ?_⟩
  · intro hb hmp
    rw [base, if_neg hb]
    have hnat : (a.tdiv b).natAbs = a.natAbs / b.natAbs := Int.natAbs_tdiv a b
    have hAa : a.natAbs ≤ 9223372036854775808 := by omega
    have hle : (a.tdiv b).natAbs ≤ 9223372036854775808 := by
      rw [hnat]
      exact le_trans (Nat.div_le_self _ _) hAa
    have hq : wrap64 (a.tdiv b) = a.tdiv b := by
      apply wrap64_eq_self
      · omega
      · by_contra hq63
        have heq : a.tdiv b = 9223372036854775808 := by omega
        have habs : a.natAbs / b.natAbs = 9223372036854775808 := by
          rw [← hnat]
          omega
        by_cases hb1' : b.natAbs = 1
        · have hA : a.natAbs = 9223372036854775808 := by
            rw [hb1', Nat.div_one] at habs
            exact habs
          have ha' : a = -9223372036854775808 := by omega
          have hbcases : b = 1 ∨ b = -1 := by omega
          rcases hbcases with rfl | rfl
          · rw [Int.tdiv_one] at heq
            omega
          · exact hmp ⟨ha', rfl⟩
        · have h2b : 2 ≤ b.natAbs := by omega
          have hstep : a.natAbs / b.natAbs ≤ a.natAbs / 2 :=
            Nat.div_le_div_left h2b (by norm_num)
          have hhalf : a.natAbs / 2 ≤ 9223372036854775808 / 2 :=
            Nat.div_le_div_right hAa
          omega
    rw [hq, int_tdiv_sign_natAbs]
  · rw [base, if_pos rfl]

/-- Witness for C9 at a concrete input: `-7 / 2` evaluates to `-3`
(truncation toward zero, not `-4`); the operands are in range, the
divisor is nonzero, and the pair is not the excluded overflow pair. -/
theorem c9_witness :
    evalExpr [] (.binary "/" (.value (.int (-7))) (.value (.int 2))) =
      .ok (.int ((-7 : Int).sign * (2 : Int).sign *
        (((-7 : Int).natAbs / (2 : Int).natAbs : Nat) : Int))) ∧
    ((-7 : Int).sign * (2 : Int).sign *
        (((-7 : Int).natAbs / (2 : Int).natAbs : Nat) : Int)) = -3 :=
  ⟨(c9_division_truncates_divzero_faults [] (-7) 2 (by decide) (by decide)
      (by decide) (by decide)).1 (by decide) (by decide), by decide⟩

/-- C6: `Basic.Load` is all-or-nothing.  Whenever the load of a file's
contents returns with a reported failure (a compile error or a line
not starting with a line number), the program store and the variable
mapping afterwards are exactly their pre-load contents: the saved
`Vars` and `Code` are written back before returning `false`. -/
theorem c6_load_failure_rollback (b : BState) (content : List Char) (b2 : BState)
    (h : load b content = some (b2, false)) :
    b2.vars = b.vars ∧ b2.code = b.code := by
  unfold load at h
  split at h
  · exact absurd h (by simp)
  · simp at h
  · simp only [Option.some.injEq, Prod.mk.injEq] at h
    obtain ⟨hb, -⟩ := h
    subst hb
    exact ⟨rfl, rfl⟩

/-- Witness for C6 at a concrete input: loading a file whose second
token is the unknown keyword `FOO` fails, and both the variables and
the stored lines afterwards equal their pre-load contents. -/
theorem c6_witness :
    (⟨[("A%", Value.int 1)], [⟨10, some .end_⟩], "o",
        "ebasic: error: unknown keyword: FOO\n"⟩ : BState).vars =
      [("A%", Value.int 1)] ∧
    (⟨[("A%", Value.int 1)], [⟨10, some .end_⟩], "o",
        "ebasic: error: unknown keyword: FOO\n"⟩ : BState).code =
      [⟨10, some .end_⟩] :=
  c6_load_failure_rollback ⟨[("A%", Value.int 1)], [⟨10, some .end_⟩], "o", "e"⟩
    "10 foo\n".data _ (by decide)

/-- C5 counterexample: the claim states a successful LOAD leaves the
variable mapping unchanged.  It does not: on the success path `Load`
returns directly out of its scan loop with the fresh empty variable
map installed by `b.New()`, and only the failure path restores the
saved variables.  Loading the one-line file `10 end` from a state
whose mapping holds `XYZ%` succeeds and leaves the mapping empty. -/
theorem c5_load_counterexample :
    load ⟨[("XYZ%", Value.int 123)], [], "", ""⟩ "10 end\n".data =
      some (⟨[], [⟨10, some .end_⟩], "", ""⟩, true) ∧
    [("XYZ%", Value.int 123)] ≠ ([] : List (String × Value)) :=
  ⟨by decide, by decide⟩

/-- C5 (amended): a successful LOAD wholly replaces the stored lines —
the resulting store is determined by the loaded file's contents alone —
and clears the variable mapping to empty (LOAD performs the same reset
as NEW and does not restore the saved variables on success); only the
output stream is untouched. -/
theorem c5_load_success_resets_vars (b b' : BState) (content : List Char)
    (b2 b2' : BState)
    (h : load b content = some (b2, true))
    (h' : load b' content = some (b2', true)) :
    b2.vars = [] ∧ b2'.vars = [] ∧ b2'.code = b2.code ∧ b2.out = b.out := by
  unfold load at h h'
  rcases hl : loadLoop (content.length + 1) ⟨none, false, content⟩ [] "" with
    _ | ⟨_ | nc, msgs⟩ <;> rw [hl] at h h'
  · exact absurd h (by simp)
  · exact absurd h (by simp)
  · simp only [Option.some.injEq, Prod.mk.injEq] at h h'
    obtain ⟨hb, -⟩ := h
    obtain ⟨hb', -⟩ := h'
    subst hb
    subst hb'
    exact ⟨rfl, rfl, rfl, rfl⟩

/-- Witness for C5 at a concrete input: two different pre-load states
successfully load the same one-line file; both end with empty
variables, the same stored lines, and their own untouched output. -/
theorem c5_witness :
    (⟨[], [⟨10, some .end_⟩], "oo", "ee"⟩ : BState).vars = [] ∧
    (⟨[], [⟨10, some .end_⟩], "", ""⟩ : BState).vars = [] ∧
    (⟨[], [⟨10, some .end_⟩], "", ""⟩ : BState).code =
      (⟨[], [⟨10, some .end_⟩], "oo", "ee"⟩ : BState).code ∧
    (⟨[], [⟨10, some .end_⟩], "oo", "ee"⟩ : BState).out =
      (⟨[("XYZ%", Value.int 123)], [⟨7, some .ret⟩], "oo", "ee"⟩ : BState).out :=
  c5_load_success_resets_vars
    ⟨[("XYZ%", Value.int 123)], [⟨7, some .ret⟩], "oo", "ee"⟩
    ⟨[], [], "", ""⟩ "10 end\n".data _ _ (by decide) (by decide)

/-- C8: executing RETURN scans the call-context stack from the top,
popping entries down to and including the nearest GoSub frame, and
resumes at that frame's origin line + 1 with the entries below it as
the remaining stack; when no GoSub frame is present (in particular on
the empty stack) it reports `RETURN without a GOSUB` on the error
stream and yields next-line -1 (halting execution) with an emptied
stack — a reported error, not a crash. -/
theorem c8_return_pops_to_gosub (b : BState) (ln : Int) :
    (∀ pre suf : List Ctx, ∀ m : Int, (∀ cx ∈ suf, cx.type ≠ goSubCtx) →
      execStmt .ret b ln (pre ++ ⟨goSubCtx, m⟩ :: suf) = some (b, m + 1, pre)) ∧
    (∀ stk : List Ctx, (∀ cx ∈ stk, cx.type ≠ goSubCtx) →
      execStmt .ret b ln stk =
        some ({ b with errOut := b.errOut ++ "basic: error: RETURN without a GOSUB\n" },
          -1, [])) := by
  constructor
  · intro pre suf m hsuf
    have hrev : (pre ++ (⟨goSubCtx, m⟩ : Ctx) :: suf).reverse
        = suf.reverse ++ (⟨goSubCtx, m⟩ : Ctx) :: pre.reverse := by
      simp
    have hscan : returnScanRev ((pre ++ (⟨goSubCtx, m⟩ : Ctx) :: suf).reverse)
        = some (m + 1, pre.reverse) := by
      rw [hrev, returnScanRev_skip (fun cx hcx => hsuf cx (List.mem_reverse.mp hcx))]
      simp [returnScanRev]
    simp only [execStmt, hscan, List.reverse_reverse]
  · intro stk hstk
    have hscan : returnScanRev stk.reverse = none :=
      returnScanRev_none (fun cx hcx => hstk cx (List.mem_reverse.mp hcx))
    simp only [execStmt, hscan]

/-- Witness for C8 at concrete inputs: RETURN on the stack holding a
GoSub frame from line 25 below a (hypothetical) For frame pops both
and resumes at 26; RETURN on a stack with no GoSub frame reports the
error and halts. -/
theorem c8_witness :
    execStmt .ret ⟨[], [], "", ""⟩ 55
        ([] ++ (⟨goSubCtx, 25⟩ : Ctx) :: [⟨forCtx, 3⟩]) =
      some (⟨[], [], "", ""⟩, 26, []) ∧
    execStmt .ret ⟨[], [], "", ""⟩ 55 [⟨forCtx, 3⟩] =
      some (⟨[], [], "", "basic: error: RETURN without a GOSUB\n"⟩, -1, []) :=
  ⟨(c8_return_pops_to_gosub ⟨[], [], "", ""⟩ 55).1 [] [⟨forCtx, 3⟩] 25 (by decide),
   (c8_return_pops_to_gosub ⟨[], [], "", ""⟩ 55).2 [⟨forCtx, 3⟩] (by decide)⟩

/-- C7: one transition of the `Basic.Run` loop positioned by a
statement-returned next-line value N > 0 (on a store sorted by line
number, as the btree keeps it).  If no stored line has number ≥ N, the
loop halts with the state unchanged — indeed every stored line number
is then < N.  Otherwise the fetched line is the *first* stored line
with number ≥ N (it is ≥ N and minimal among stored lines ≥ N — this
is how a GOTO to an absent line number falls through to the next
existing line), that line's statement is executed, and a returned
next-line value ≤ 0 halts while a positive one continues the loop
repositioned there. -/
theorem c7_executor_reposition (b : BState) (stk : List Ctx) (f : Nat) (N : Int)
    (hs : List.Pairwise (fun a c => a.number < c.number) b.code) (hN : 0 < N) :
    (firstGE b.code N = none →
      runLoop (f + 1) b N stk = .done b ∧ ∀ l ∈ b.code, l.number < N) ∧
    (∀ l, firstGE b.code N = some l →
      (N ≤ l.number ∧ ∀ m ∈ b.code, N ≤ m.number → l.number ≤ m.number) ∧
      runLoop (f + 1) b N stk =
        (match execLineStmt l.stmt b l.number stk with
         | none => .panicked b
         | some (b2, ln2, stk2) =>
           if ln2 ≤ 0 then .done b2 else runLoop f b2 ln2 stk2)) := by
  constructor
  · intro hnone
    refine ⟨?_, firstGE_none hnone⟩
    simp only [runLoop, hnone]
  · intro l hsome
    have hleast := firstGE_least hs hsome
    refine ⟨hleast, ?_⟩
    have hnz : ¬(l.number = 0) := by
      have := hleast.1
      omega
    simp only [runLoop, hsome, if_neg hnz]

/-- Witness for C7 at a concrete input: repositioned to N = 5 over the
store `[line 10: END]`, the fetch finds line 10 (the first line ≥ 5),
`END` returns -1, and the run halts. -/
theorem c7_witness :
    runLoop (0 + 1) ⟨[], [⟨10, some .end_⟩], "", ""⟩ 5 [] =
      .done ⟨[], [⟨10, some .end_⟩], "", ""⟩ := by
  have h := (c7_executor_reposition ⟨[], [⟨10, some .end_⟩], "", ""⟩ [] 0 5
    (by simp) (by norm_num)).2 ⟨10, some .end_⟩ (by decide)
  rw [h.2]
  decide

/-- C1: the claim states rendering is re-parseable — in particular that
string literals are re-quoted even as binary-operator operands or
inside an IF test.  They are not: `BinaryExpr.Print` (like
`IfThenStmt.Print` and `IfGotoStmt.Print`) formats its children with
`%s`, invoking their `String()` method, which renders a string literal
unquoted.  Compiling `print "a" + "b"` and rendering the result gives
`PRINT a + b`, which re-compiles to a PRINT of two *variable
references* `A` and `B` — not structurally equivalent to the original
statement.  This theorem evaluates the code at that failing input. -/
theorem c1_rendering_not_reparseable :
    compileStatement 32 true (mkTR "print \"a\" + \"b\"\n") =
      .ok (some (.print [.binary "+" (.value (.str "a")) (.value (.str "b"))]))
        ⟨none, true, []⟩ "" ∧
    stmtPrint (some (.print [.binary "+" (.value (.str "a")) (.value (.str "b"))])) =
      some "PRINT a + b" ∧
    compileStatement 32 true (mkTR "PRINT a + b\n") =
      .ok (some (.print [.binary "+" (.var "A") (.var "B")])) ⟨none, true, []⟩ "" ∧
    Stmt.print [.binary "+" (.value (.str "a")) (.value (.str "b"))] ≠
      Stmt.print [.binary "+" (.var "A") (.var "B")] :=
  ⟨by decide, by decide, by decide, by decide⟩

theorem readTokenCore_plus (l : List Char) :
    readTokenCore ('+' :: l) = some (.op "+", l) := rfl

theorem readTokenCore_minus (l : List Char) :
    readTokenCore ('-' :: l) = some (.op "-", l) := rfl

theorem readTokenCore_star (l : List Char) :
    readTokenCore ('*' :: l) = some (.op "*", l) := rfl

theorem readTokenCore_slash (l : List Char) :
    readTokenCore ('/' :: l) = some (.op "/", l) := rfl

theorem readTokenCore_eqop (l : List Char) :
    readTokenCore ('=' :: l) = some (.op "=", l) := rfl

theorem tokBeq_int_eol (n : Int) : (Tok.int n == Tok.eol) = false := rfl

theorem tokBeq_eol_eol : (Tok.eol == Tok.eol) = true := rfl

/-- C3: expression compilation resolves at most one binary operator per
call frame and compiles the right operand by one full recursive call,
so every chain of (single-character) binary operators over integer
literals parses right-associated with a single precedence level:
`a o1 b o2 c` always compiles to `a o1 (b o2 c)` whatever the two
operators are.  Concretely, the immediate program
`print 12 + 34 * 56` prints `1916` (= 12 + (34·56)) and
`print (12 + 34) * 56` prints `2576`. -/
theorem c3_right_assoc_single_precedence
    (f : Nat) (sa sb sc : List Char) (a b c : Int) (o1 o2 : Char)
    (h1 : LexesInt sa a) (h2 : LexesInt sb b) (h3 : LexesInt sc c)
    (ho1 : o1 = '+' ∨ o1 = '-' ∨ o1 = '*' ∨ o1 = '/' ∨ o1 = '=')
    (ho2 : o2 = '+' ∨ o2 = '-' ∨ o2 = '*' ∨ o2 = '/' ∨ o2 = '=') :
    compileExpr (f + 1 + 1 + 1)
        ⟨none, false,
          sa ++ ' ' :: o1 :: ' ' :: (sb ++ ' ' :: o2 :: ' ' :: (sc ++ ['\n']))⟩ =
      .ok (.binary (String.singleton o1) (.value (.int a))
          (.binary (String.singleton o2) (.value (.int b)) (.value (.int c))))
        ⟨some .eol, true, []⟩ "" ∧
    readTokenTR (mkTR "print 12 + 34 * 56\n") =
      some (.kw "PRINT", ⟨none, false, " 12 + 34 * 56\n".data⟩) ∧
    programImmediate 32 ⟨[], [], "", ""⟩ "PRINT" ⟨none, false, " 12 + 34 * 56\n".data⟩ =
      some (⟨[], [], "1916\n", ""⟩, ⟨none, true, []⟩) ∧
    readTokenTR (mkTR "print (12 + 34) * 56\n") =
      some (.kw "PRINT", ⟨none, false, " (12 + 34) * 56\n".data⟩) ∧
    programImmediate 32 ⟨[], [], "", ""⟩ "PRINT" ⟨none, false, " (12 + 34) * 56\n".data⟩ =
      some (⟨[], [], "2576\n", ""⟩, ⟨none, true, []⟩) := by
  refine ⟨?_, by decide, by decide, by decide, by decide⟩
  rcases ho1 with rfl | rfl | rfl | rfl | rfl <;>
    rcases ho2 with rfl | rfl | rfl | rfl | rfl <;>
    · simp only [compileExpr, readTokenTR, peekTokenTR,
        lexesInt_space h1, lexesInt_space h2, lexesInt_nl h3,
        readTokenCore_space, readTokenCore_nl,
        readTokenCore_plus, readTokenCore_minus, readTokenCore_star,
        readTokenCore_slash, readTokenCore_eqop,
        tokBeq_int_eol, tokBeq_eol_eol]
      rfl

theorem scanNum_nondigit {c : Char} (hc : isDigitCh c = false)
    (rest : List Char) (n : Int) :
    scanNum (c :: rest) n = some (n, c :: rest) := by
  rw [scanNum, if_neg (by simp [hc])]

theorem lexesInt_12 : LexesInt ['1', '2'] 12 := by
  intro c rest hc
  show readTokenCore ('1' :: '2' :: c :: rest) = some (Tok.int 12, c :: rest)
  have h0 : readTokenCore ('1' :: '2' :: c :: rest) =
      (match scanNum (c :: rest) 12 with
       | some (n, cs2) => some (Tok.int n, cs2)
       | none => none) := rfl
  rw [h0, scanNum_nondigit hc]

theorem lexesInt_34 : LexesInt ['3', '4'] 34 := by
  intro c rest hc
  show readTokenCore ('3' :: '4' :: c :: rest) = some (Tok.int 34, c :: rest)
  have h0 : readTokenCore ('3' :: '4' :: c :: rest) =
      (match scanNum (c :: rest) 34 with
       | some (n, cs2) => some (Tok.int n, cs2)
       | none => none) := rfl
  rw [h0, scanNum_nondigit hc]

theorem lexesInt_56 : LexesInt ['5', '6'] 56 := by
  intro c rest hc
  show readTokenCore ('5' :: '6' :: c :: rest) = some (Tok.int 56, c :: rest)
  have h0 : readTokenCore ('5' :: '6' :: c :: rest) =
      (match scanNum (c :: rest) 56 with
       | some (n, cs2) => some (Tok.int n, cs2)
       | none => none) := rfl
  rw [h0, scanNum_nondigit hc]

/-- Witness for C3 at a concrete input: the character stream
`12 + 34 * 56` (newline-terminated) compiles to the right-associated
tree `12 + (34 * 56)`, with `*` given no higher precedence than a
recursive right-operand call. -/
theorem c3_witness :
    compileExpr (0 + 1 + 1 + 1)
        ⟨none, false,
          ['1', '2'] ++ ' ' :: '+' :: ' ' ::
            (['3', '4'] ++ ' ' :: '*' :: ' ' :: (['5', '6'] ++ ['\n']))⟩ =
      .ok (.binary (String.singleton '+') (.value (.int 12))
          (.binary (String.singleton '*') (.value (.int 34)) (.value (.int 56))))
        ⟨some .eol, true, []⟩ "" :=
  (c3_right_assoc_single_precedence 0 ['1', '2'] ['3', '4'] ['5', '6'] 12 34 56
    '+' '*' lexesInt_12 lexesInt_34 lexesInt_56 (Or.inl rfl)
    (Or.inr (Or.inr (Or.inl rfl)))).1

end GoBasic
